import Mathlib

/-!
# azbrowse: tree navigation, expansion merge and auto-navigation

A shallow embedding of `ListWidget` (src/treeview.go) and of the
auto-navigation goroutine of `main` (src/cmd/azbrowse/main.go).

Conventions of the embedding:

* a Go `string` is its sequence of bytes (`GoString`); `len` is the number of
  bytes and `s[i]` is a byte, exactly as in Go;
* a Go `panic` is an explicit outcome. For the methods of `ListWidget`, which
  mutate the receiver in place, the outcome of a panic carries the receiver as
  it was when the panic was raised;
* tracing spans and the `context.Context` argument carry no data that the
  modelled code reads back and are left out;
* the `gocui` view and the content widget are assumed to be present (non-nil);
  only the fields the list widget writes to them are kept.
-/

namespace Azbrowse

/-! ## Strings -/

/-- A Go string: an immutable sequence of bytes. A byte is written as a natural
number; bytes are only compared for equality, so no statement depends on the
bound 256. -/
abbrev GoString := List Nat

/-- The bytes of an ASCII literal. -/
def str (s : String) : GoString := s.toList.map Char.toNat

/-- The byte `'/'`. -/
def slash : Nat := 47

/-- Go `strings.HasPrefix(s, prefix)`:
`len(s) >= len(prefix) && s[0:len(prefix)] == prefix`. -/
def HasPrefix (s pfx : GoString) : Bool :=
  decide (s.length ≥ pfx.length) && (s.take pfx.length == pfx)

/-! ## Panics -/

/-- Why a modelled piece of Go code panicked. -/
inductive PanicCause where
  /-- A slice or string index out of range (runtime panic). -/
  | indexOutOfRange
  /-- The `panic(err)` after `DoesExpand` returned an error. -/
  | predicateFailed (err : GoString)
  /-- The `panic(done.Err)` on a received expander result. -/
  | produceFailed (err : GoString)
  /-- The `panic("Expander timed out after 45seconds")`. -/
  | timeout
  /-- The `panic(result.Err)` on the default expander's result. -/
  | defaultContentFailed (err : GoString)
  deriving DecidableEq

/-- Result of a computation that either yields a value or panics. -/
inductive Res (α : Type) where
  | ok (a : α)
  | panic (cause : PanicCause)
  deriving DecidableEq

/-- Go indexing `xs[i]` for an `int` index: a runtime panic when `i` is
negative or not below `len(xs)`. -/
def goIndex {α : Type} (xs : List α) (i : Int) : Res α :=
  if i < 0 then Res.panic PanicCause.indexOutOfRange
  else
    match xs.get? i.toNat with
    | some x => Res.ok x
    | none => Res.panic PanicCause.indexOutOfRange

/-! ## Auto-navigation matcher (main.go, line 294) -/

/-- The condition of the `if` inside the scan loop of the auto-navigation
goroutine:
`strings.HasPrefix(navigateToID, node.ID) &&
 (len(navigateToID) == len(node.ID) || navigateToID[len(node.ID)] == '/')`,
with the short-circuit evaluation of `&&` and `||` and the possible
index panic of `navigateToID[len(node.ID)]` made explicit. -/
def nodeMatches (navigateToID nodeID : GoString) : Res Bool :=
  if HasPrefix navigateToID nodeID then
    if navigateToID.length = nodeID.length then Res.ok true
    else
      match goIndex navigateToID (nodeID.length : Int) with
      | Res.ok c => Res.ok (c == slash)
      | Res.panic e => Res.panic e
  else Res.ok false

/-! ## Data model (src/treeview.go) -/

/-- Modelled from the spec: `handlers.TreeNode` is declared outside src/; the
fields are those the two source files read or write (spec §3,
`ResourceNode`). -/
structure TreeNode where
  Display : GoString
  Name : GoString
  ID : GoString
  ExpandURL : GoString
  ItemType : GoString
  ExpandReturnType : GoString
  SubscriptionID : GoString
  deriving DecidableEq

/-- Modelled from the spec: `handlers.ExpanderResult` is declared outside
src/ (spec §3, `ExpansionResult`). `Nodes` is a `*[]TreeNode`, `none` being
the nil pointer; `Err` is an `error`, `none` being nil. -/
structure ExpanderResult where
  SourceDescription : GoString
  Nodes : Option (List TreeNode)
  Response : GoString
  Err : Option GoString
  deriving DecidableEq

/-- Modelled from the spec: the `handlers.Expander` interface is declared
outside src/ (spec §3 and §9: `match(node) -> bool|error`,
`produce(ctx, node) -> ExpansionResult`). `DoesExpand` returns the pair
`(bool, error)` of the Go method. -/
structure Expander where
  Name : GoString
  DoesExpand : TreeNode → Bool × Option GoString
  Expand : TreeNode → ExpanderResult

/-- Modelled from the spec: `Page` is declared outside src/ (spec §3); the
fields are those of the composite literals in `SetNodes` and
`ExpandCurrentSelection`. -/
structure Page where
  Data : GoString
  Value : List TreeNode
  Title : GoString
  Selection : Int
  deriving DecidableEq

/-- Modelled from the spec: `Stack` is declared outside src/ (spec §4.3): a
strict LIFO history of pages, most recent page first. -/
abbrev Stack := List Page

/-- Modelled from the spec: `Stack.Push` (spec §4.3, `PushCurrent`). -/
def Stack.Push (s : Stack) (p : Page) : Stack := p :: s

/-- Modelled from the spec: `Stack.Pop` (spec §4.3): removes and returns the
most recently pushed page; on an empty stack it returns nil (`none`) and the
stack stays empty. -/
def Stack.Pop (s : Stack) : Option Page × Stack :=
  match s with
  | [] => (none, [])
  | p :: rest => (some p, rest)

/-- The state of a `ListWidget` that its navigation methods read or write.
`content` and `contentTitle` are what `contentView.SetContent` stores and
`contentView.GetContent` returns; `viewTitle` is `w.view.Title`. The geometry
`x, y, w, h`, the context and the status bar are used by none of the modelled
methods. -/
structure ListWidget where
  items : List TreeNode
  content : GoString
  contentTitle : GoString
  navStack : Stack
  title : GoString
  selected : Int
  viewTitle : GoString
  deriving DecidableEq

/-- Outcome of a method that mutates the widget in place: it returns, or it
panics with the widget as it is at that moment. -/
inductive Outcome where
  | returned (w : ListWidget)
  | panicked (cause : PanicCause) (w : ListWidget)
  deriving DecidableEq

/-- The constant `actionType`. -/
def actionType : GoString := str "action"

/-- The constant `subscriptionType`. -/
def subscriptionType : GoString := str "subscription"

/-- The constant `resourceGroupType`. -/
def resourceGroupType : GoString := str "resourcegroup"

/-- Constructor `NewListWidget`: the arguments `items` and `selected` are not stored; the
list, the title and the navigation stack start at their zero values. -/
def NewListWidget (_items : List GoString) (_selected : Int)
    (content contentTitle : GoString) : ListWidget :=
  { items := [], content := content, contentTitle := contentTitle,
    navStack := [], title := [], selected := 0, viewTitle := [] }

/-- Method `ListWidget.SetNodes`. -/
def SetNodes (nodes : List TreeNode) (w : ListWidget) : ListWidget :=
  let w1 := { w with selected := 0 }
  let page : Page :=
    { Data := w1.content, Value := w1.items, Title := w1.title,
      Selection := w1.selected }
  let w2 := { w1 with navStack := w1.navStack.Push page }
  { w2 with items := nodes }

/-- One entry of `armclient.SubResponse.Subs` (declared outside src/): the
fields `SetSubscriptions` reads. -/
structure Sub where
  DisplayName : GoString
  ID : GoString
  deriving DecidableEq

/-- Method `ListWidget.SetSubscriptions`. -/
def SetSubscriptions (subs : List Sub) (w : ListWidget) : ListWidget :=
  let newList := subs.map fun sub =>
    ({ Display := sub.DisplayName, Name := sub.DisplayName, ID := sub.ID,
       ExpandURL := sub.ID ++ str "/resourceGroups?api-version=2018-05-01",
       ItemType := subscriptionType, ExpandReturnType := resourceGroupType,
       SubscriptionID := [] } : TreeNode)
  { w with title := str "Subscriptions", items := newList,
           viewTitle := str "Subscriptions" }

/-- Method `ListWidget.GoBack`. -/
def GoBack (w : ListWidget) : ListWidget :=
  match w.navStack.Pop with
  | (none, _) => w
  | (some previousPage, rest) =>
    { w with
      navStack := rest
      content := previousPage.Data
      contentTitle := str "Response"
      items := previousPage.Value
      title := previousPage.Title
      selected := previousPage.Selection
      viewTitle := previousPage.Title }

/-- Method `ListWidget.ChangeSelection`. -/
def ChangeSelection (i : Int) (w : ListWidget) : ListWidget :=
  if i ≥ (w.items.length : Int) ∨ i < 0 then w else { w with selected := i }

/-- Method `ListWidget.CurrentSelection`. -/
def CurrentSelection (w : ListWidget) : Int := w.selected

/-- Method `ListWidget.CurrentItem`. -/
def CurrentItem (w : ListWidget) : Res TreeNode := goIndex w.items w.selected

/-! ## ExpandCurrentSelection -/

/-- The guard of the push in `ExpandCurrentSelection`:
`currentItem.ExpandReturnType != "none" &&
 currentItem.ExpandReturnType != actionType`. -/
def pushesPage (currentItem : TreeNode) : Bool :=
  currentItem.ExpandReturnType != str "none" &&
    currentItem.ExpandReturnType != actionType

/-- The loop `for _, h := range handlers.Register`: the expanders whose
`DoesExpand` returned true, in registration order (one goroutine is started
for each, so `handlerExpanding` is the length of this list), or the panic
raised at the first predicate error. -/
def firedExpanders (currentItem : TreeNode) :
    List Expander → List Expander → Res (List Expander)
  | [], fired => Res.ok fired
  | h :: rest, fired =>
    match h.DoesExpand currentItem with
    | (_, some err) => Res.panic (PanicCause.predicateFailed err)
    | (false, none) => firedExpanders currentItem rest fired
    | (true, none) => firedExpanders currentItem rest (fired ++ [h])

/-- The results the started goroutines send on `completedExpands`, listed in
registration order of their expanders. -/
def launchedResults (currentItem : TreeNode) (fired : List Expander) :
    List ExpanderResult :=
  fired.map fun h => h.Expand currentItem

/-- The fan-in loop `for index := 0; index < handlerExpanding; index++`.
`received` lists, in receive order, the results that arrive on
`completedExpands` before the 45 second timer fires; an iteration that finds
no further result takes the `<-timeout` case. -/
def collectExpands :
    Nat → List ExpanderResult → List TreeNode → Res (List TreeNode)
  | 0, _, newItems => Res.ok newItems
  | _ + 1, [], _ => Res.panic PanicCause.timeout
  | n + 1, done :: rest, newItems =>
    match done.Err with
    | some err => Res.panic (PanicCause.produceFailed err)
    | none =>
      match done.Nodes with
      | none => collectExpands n rest newItems
      | some nodes => collectExpands n rest (newItems ++ nodes)

/-- Method `ListWidget.ExpandCurrentSelection`. `Register` is `handlers.Register`,
`DefaultExpand` is `handlers.DefaultExpander{}.Expand` (both declared outside
src/), `received` is the receive order on `completedExpands` (see
`collectExpands`). -/
def ExpandCurrentSelection (Register : List Expander)
    (DefaultExpand : TreeNode → ExpanderResult)
    (received : List ExpanderResult) (w : ListWidget) : Outcome :=
  match goIndex w.items w.selected with
  | Res.panic cause => Outcome.panicked cause w
  | Res.ok currentItem =>
    let page : Page :=
      { Data := w.content, Value := w.items, Title := w.title,
        Selection := w.selected }
    let w1 :=
      if pushesPage currentItem then { w with navStack := w.navStack.Push page }
      else w
    match firedExpanders currentItem Register [] with
    | Res.panic cause => Outcome.panicked cause w1
    | Res.ok fired =>
      let handlerExpanding := fired.length
      match collectExpands handlerExpanding received [] with
      | Res.panic cause => Outcome.panicked cause w1
      | Res.ok newItems =>
        let w2 := if newItems.length > 0 then { w1 with items := newItems } else w1
        let result := DefaultExpand currentItem
        match result.Err with
        | some err => Outcome.panicked (PanicCause.defaultContentFailed err) w2
        | none =>
          Outcome.returned
            { w2 with
              content := result.Response
              contentTitle :=
                str "[CTRL+F -> Fullscreen|CTRL+A -> Actions] " ++ currentItem.Name
              selected := 0
              title := w2.title ++ str ">" ++ currentItem.Name }

/-! ## Sequences of widget calls -/

/-- One call on the widget. An expansion carries the receive order that the
scheduler produces for it. -/
inductive Op where
  | SetNodes (nodes : List TreeNode)
  | ChangeSelection (i : Int)
  | GoBack
  | ExpandCurrentSelection (received : List ExpanderResult)
  deriving DecidableEq

/-- The outcome of one call. -/
def applyOp (Register : List Expander) (DefaultExpand : TreeNode → ExpanderResult)
    (op : Op) (w : ListWidget) : Outcome :=
  match op with
  | Op.SetNodes nodes => Outcome.returned (SetNodes nodes w)
  | Op.ChangeSelection i => Outcome.returned (ChangeSelection i w)
  | Op.GoBack => Outcome.returned (GoBack w)
  | Op.ExpandCurrentSelection received =>
    ExpandCurrentSelection Register DefaultExpand received w

/-- The widget after a sequence of calls all of which return; `none` as soon
as one of them panics. -/
def runOps (Register : List Expander) (DefaultExpand : TreeNode → ExpanderResult) :
    List Op → ListWidget → Option ListWidget
  | [], w => some w
  | op :: ops, w =>
    match applyOp Register DefaultExpand op w with
    | Outcome.returned w1 => runOps Register DefaultExpand ops w1
    | Outcome.panicked _ _ => none

/-- Counters kept along a sequence of calls. -/
structure Tally where
  /-- Calls of `ExpandCurrentSelection` that returned. -/
  expansions : Nat
  /-- Those of them whose selected node passes the guard of the push. -/
  pushingExpansions : Nat
  /-- Calls of `GoBack` that found a page on the stack. -/
  pops : Nat
  deriving DecidableEq

/-- The tally of one call made in state `w`. -/
def tallyOp (Register : List Expander) (DefaultExpand : TreeNode → ExpanderResult)
    (op : Op) (w : ListWidget) (t : Tally) : Tally :=
  match op with
  | Op.SetNodes _ => t
  | Op.ChangeSelection _ => t
  | Op.GoBack =>
    if w.navStack.isEmpty then t else { t with pops := t.pops + 1 }
  | Op.ExpandCurrentSelection received =>
    match ExpandCurrentSelection Register DefaultExpand received w with
    | Outcome.panicked _ _ => t
    | Outcome.returned _ =>
      match CurrentItem w with
      | Res.ok currentItem =>
        if pushesPage currentItem then
          { t with expansions := t.expansions + 1,
                   pushingExpansions := t.pushingExpansions + 1 }
        else { t with expansions := t.expansions + 1 }
      | Res.panic _ => t

/-- The tally of a sequence of calls started in state `w`; counting stops at
the first call that panics. -/
def tallyOps (Register : List Expander) (DefaultExpand : TreeNode → ExpanderResult) :
    List Op → ListWidget → Tally → Tally
  | [], _, t => t
  | op :: ops, w, t =>
    match applyOp Register DefaultExpand op w with
    | Outcome.returned w1 =>
      tallyOps Register DefaultExpand ops w1 (tallyOp Register DefaultExpand op w t)
    | Outcome.panicked _ _ => t

/-- The calls the navigation stack invariant speaks of: expansions and
back-navigations, with selection changes in between. -/
def Op.isNavigation : Op → Bool
  | Op.SetNodes _ => false
  | _ => true

/-- A selection that Go can use as an index whenever the list is non-empty. -/
def validSelection (items : List TreeNode) (selected : Int) : Prop :=
  0 ≤ selected ∧ (items ≠ [] → selected < (items.length : Int))

/-- The selection invariant of the widget and of every stacked page. -/
def SelectionInv (w : ListWidget) : Prop :=
  validSelection w.items w.selected ∧
    ∀ p ∈ w.navStack, validSelection p.Value p.Selection

/-! ## Auto-navigation goroutine (main.go, lines 273-310) -/

/-- A non-nil `*handlers.TreeNode`: the address identifies the pointer (`==`
on pointers compares addresses), `node` is what it points to. -/
structure NodeRef where
  addr : Nat
  node : TreeNode
  deriving DecidableEq

/-- The local variables of the goroutine. `lastNavigatedNode` is a pointer,
`none` being nil. The automaton is Active while `processNavigations` is true
and Stopped afterwards. -/
structure AutoNav where
  lastNavigatedNode : Option Nat
  processNavigations : Bool
  deriving DecidableEq

/-- The state before the first event: `var lastNavigatedNode *handlers.TreeNode`
and `processNavigations := true`. -/
def AutoNav.init : AutoNav :=
  { lastNavigatedNode := none, processNavigations := true }

/-- A call the goroutine makes on the list widget. -/
inductive Command where
  | ChangeSelection (nodeIndex : Int)
  | ExpandCurrentSelection
  deriving DecidableEq

/-- The loop `for nodeIndex, node := range nodeList` up to its `break`: the
index and the pointer of the node the body acts on, `none` when the loop runs
to its end (`gotNode` stays false). -/
def scanNodes (navigateToID : GoString) :
    List NodeRef → Nat → Res (Option (Nat × NodeRef))
  | [], _ => Res.ok none
  | node :: rest, nodeIndex =>
    match nodeMatches navigateToID node.node.ID with
    | Res.panic cause => Res.panic cause
    | Res.ok true => Res.ok (some (nodeIndex, node))
    | Res.ok false => scanNodes navigateToID rest (nodeIndex + 1)

/-- One iteration of the outer `for` loop: the event `nodeList` is received
while `list.CurrentExpandedItem()` would return `currentExpanded`. The result
is the new state and the calls made on the list widget, in order. -/
def onNavigated (navigateToID : GoString) (currentExpanded : Option Nat)
    (nodeList : List NodeRef) (st : AutoNav) : Res (AutoNav × List Command) :=
  if st.processNavigations then
    if st.lastNavigatedNode ≠ none ∧ st.lastNavigatedNode ≠ currentExpanded then
      Res.ok ({ st with processNavigations := false }, [])
    else
      match scanNodes navigateToID nodeList 0 with
      | Res.panic cause => Res.panic cause
      | Res.ok (some (nodeIndex, node)) =>
        Res.ok ({ st with lastNavigatedNode := some node.addr },
          [Command.ChangeSelection (nodeIndex : Int), Command.ExpandCurrentSelection])
      | Res.ok none => Res.ok ({ st with processNavigations := false }, [])
  else Res.ok (st, [])

/-- A received event together with the engine's currently expanded node at
the time the goroutine handles it. -/
structure NavEvent where
  currentExpanded : Option Nat
  nodeList : List NodeRef
  deriving DecidableEq

/-- The goroutine over a sequence of events: the final state and all calls
made, in order. -/
def runEvents (navigateToID : GoString) :
    List NavEvent → AutoNav → Res (AutoNav × List Command)
  | [], st => Res.ok (st, [])
  | ev :: evs, st =>
    match onNavigated navigateToID ev.currentExpanded ev.nodeList st with
    | Res.panic cause => Res.panic cause
    | Res.ok (st1, cmds) =>
      match runEvents navigateToID evs st1 with
      | Res.panic cause => Res.panic cause
      | Res.ok (st2, cmds2) => Res.ok (st2, cmds ++ cmds2)

/-! ## Vocabulary of the statements -/

/-- The nodes a received result adds to `newItems`: `*done.Nodes`, nothing
when `done.Nodes` is nil. -/
def contributedNodes (r : ExpanderResult) : List TreeNode :=
  match r.Nodes with
  | none => []
  | some nodes => nodes

/-- The page `ExpandCurrentSelection` and `SetNodes` capture: the displayed
list, content, title and selection of `w`. -/
def currentPage (w : ListWidget) : Page :=
  { Data := w.content, Value := w.items, Title := w.title, Selection := w.selected }

/-- The widget a returning expansion of `currentItem` leaves behind when the
fan-in loop produced `newItems` and the default expander produced `result`. -/
def expandedWidget (w : ListWidget) (currentItem : TreeNode)
    (newItems : List TreeNode) (result : ExpanderResult) : ListWidget :=
  { items := if newItems = [] then w.items else newItems
    content := result.Response
    contentTitle := str "[CTRL+F -> Fullscreen|CTRL+A -> Actions] " ++ currentItem.Name
    navStack := if pushesPage currentItem then currentPage w :: w.navStack else w.navStack
    title := w.title ++ str ">" ++ currentItem.Name
    selected := 0
    viewTitle := w.viewTitle }

/-- The widget right after the guarded push of `ExpandCurrentSelection` for
the selected node `currentItem`. -/
def pushedWidget (w : ListWidget) (currentItem : TreeNode) : ListWidget :=
  if pushesPage currentItem then { w with navStack := currentPage w :: w.navStack }
  else w

/-- The path-prefix relation of the auto-navigation: `d` is a prefix of the
target `t`, and `t` ends there or continues with a `'/'`. -/
def PathPrefix (d t : GoString) : Prop :=
  d <+: t ∧ (t = d ∨ t.get? d.length = some slash)

/-- The expanders of the registry whose predicate answers true for the node,
in registration order. -/
def interested (currentItem : TreeNode) (Register : List Expander) : List Expander :=
  Register.filter fun h => (h.DoesExpand currentItem).1

/-! ## Concrete scenarios -/

/-- A subscription as `SetSubscriptions` builds it. -/
def exSub : TreeNode :=
  { Display := str "s1", Name := str "s1", ID := str "/s1",
    ExpandURL := str "/s1/resourceGroups?api-version=2018-05-01",
    ItemType := subscriptionType, ExpandReturnType := resourceGroupType,
    SubscriptionID := [] }

/-- A resource group below `exSub`. -/
def exRgA : TreeNode :=
  { Display := str "a", Name := str "a", ID := str "/s1/a", ExpandURL := str "/s1/a",
    ItemType := resourceGroupType, ExpandReturnType := str "resource",
    SubscriptionID := [] }

/-- Another resource group below `exSub`. -/
def exRgB : TreeNode :=
  { Display := str "b", Name := str "b", ID := str "/s1/b", ExpandURL := str "/s1/b",
    ItemType := resourceGroupType, ExpandReturnType := str "resource",
    SubscriptionID := [] }

/-- A node whose `ExpandReturnType` is `"none"`. -/
def exLeaf : TreeNode :=
  { Display := str "l", Name := str "l", ID := str "/s1/l", ExpandURL := str "/s1/l",
    ItemType := str "resource", ExpandReturnType := str "none",
    SubscriptionID := [] }

/-- A successful result carrying `exRgA`. -/
def exResultA : ExpanderResult :=
  { SourceDescription := str "A", Nodes := some [exRgA], Response := [], Err := none }

/-- A successful result carrying `exRgB`. -/
def exResultB : ExpanderResult :=
  { SourceDescription := str "B", Nodes := some [exRgB], Response := [], Err := none }

/-- A successful result carrying `exLeaf`. -/
def exResultLeaf : ExpanderResult :=
  { SourceDescription := str "L", Nodes := some [exLeaf], Response := [], Err := none }

/-- A successful result with a nil `Nodes`. -/
def exResultNil : ExpanderResult :=
  { SourceDescription := str "N", Nodes := none, Response := [], Err := none }

/-- A successful result with an empty `Nodes`. -/
def exResultEmpty : ExpanderResult :=
  { SourceDescription := str "E", Nodes := some [], Response := [], Err := none }

/-- An expander that fires on every node and yields `exResultA`. -/
def exExpanderA : Expander :=
  { Name := str "A", DoesExpand := fun _ => (true, none), Expand := fun _ => exResultA }

/-- An expander that fires on every node and yields `exResultB`. -/
def exExpanderB : Expander :=
  { Name := str "B", DoesExpand := fun _ => (true, none), Expand := fun _ => exResultB }

/-- An expander that fires on subscriptions only and yields `exResultLeaf`. -/
def exExpanderLeaf : Expander :=
  { Name := str "L", DoesExpand := fun n => (n.ItemType == subscriptionType, none),
    Expand := fun _ => exResultLeaf }

/-- An expander that fires on every node and yields a nil node list. -/
def exExpanderNil : Expander :=
  { Name := str "N", DoesExpand := fun _ => (true, none), Expand := fun _ => exResultNil }

/-- An expander that fires on every node and yields an empty node list. -/
def exExpanderEmpty : Expander :=
  { Name := str "E", DoesExpand := fun _ => (true, none), Expand := fun _ => exResultEmpty }

/-- An expander whose predicate returns an error. -/
def exExpanderBroken : Expander :=
  { Name := str "X", DoesExpand := fun _ => (false, some (str "boom")),
    Expand := fun _ => exResultNil }

/-- A default expander that succeeds and shows the node's ID. -/
def exDefault (n : TreeNode) : ExpanderResult :=
  { SourceDescription := str "default", Nodes := none, Response := n.ID, Err := none }

/-- A default expander that fails. -/
def exDefaultFails (_ : TreeNode) : ExpanderResult :=
  { SourceDescription := str "default", Nodes := none, Response := [],
    Err := some (str "boom") }

/-- The root list: a fresh widget showing one subscription. -/
def exRoot : ListWidget :=
  SetSubscriptions [{ DisplayName := str "s1", ID := str "/s1" }]
    (NewListWidget [] 0 [] [])

/-- The widget after the subscription of the root list was expanded and the
expander delivered `exLeaf`: the leaf is displayed and selected, the root
page is on the stack. -/
def exAtLeaf : ListWidget :=
  expandedWidget exRoot exSub [exLeaf] (exDefault exSub)

/-- The widget after the leaf of `exAtLeaf` was expanded in turn: no expander
fires, no page is pushed. -/
def exLeafExpanded : ListWidget :=
  expandedWidget exAtLeaf exLeaf [] (exDefault exLeaf)

/-- Two expansions in a row: the first receives `exResultLeaf`, the second
receives nothing (no expander fires on the leaf). -/
def exTwoExpansions : List Op :=
  [Op.ExpandCurrentSelection [exResultLeaf], Op.ExpandCurrentSelection []]

/-- A sequence of calls on a fresh widget: show two nodes, select the second,
expand it, go back. -/
def exOps : List Op :=
  [Op.SetNodes [exSub, exRgA], Op.ChangeSelection 1,
    Op.ExpandCurrentSelection [exResultA], Op.GoBack]

/-- The widget `exOps` ends in: the two nodes are displayed again and the
second is selected; the page of the empty first list is still stacked. -/
def exAfterOps : ListWidget :=
  { items := [exSub, exRgA], content := [], contentTitle := str "Response",
    navStack := [{ Data := [], Value := [], Title := [], Selection := 0 }],
    title := [], selected := 1, viewTitle := [] }

/-- Pointers to the two resource groups and to the leaf below `exSub`. -/
def exChildren : List NodeRef :=
  [{ addr := 2, node := exRgB }, { addr := 3, node := exRgA },
    { addr := 4, node := exLeaf }]

/-! ## Theorems -/

theorem HasPrefix_iff (s pfx : GoString) : HasPrefix s pfx = true ↔ pfx <+: s := by
  unfold HasPrefix
  rw [List.prefix_iff_eq_take]
  constructor
  · intro h
    simp only [Bool.and_eq_true, decide_eq_true_eq, beq_iff_eq] at h
    exact h.2.symm
  · intro h
    simp only [Bool.and_eq_true, decide_eq_true_eq, beq_iff_eq]
    refine ⟨?_, h.symm⟩
    have := congrArg List.length h
    simp at this
    omega

theorem goIndex_natCast {α : Type} (xs : List α) (n : Nat) :
    goIndex xs (n : Int) =
      match xs.get? n with
      | some x => Res.ok x
      | none => Res.panic PanicCause.indexOutOfRange := by
  unfold goIndex
  have h : ¬ ((n : Int) < 0) := by omega
  simp [h]

theorem nodeMatches_total (t d : GoString) :
    nodeMatches t d = Res.ok true ∨ nodeMatches t d = Res.ok false := by
  unfold nodeMatches
  by_cases hp : HasPrefix t d = true
  · rw [if_pos hp]
    by_cases hl : t.length = d.length
    · rw [if_pos hl]; exact Or.inl rfl
    · rw [if_neg hl, goIndex_natCast]
      have hpre := (HasPrefix_iff t d).1 hp
      have hle : d.length ≤ t.length := hpre.length_le
      have hlt : d.length < t.length := by omega
      rw [List.get?_eq_get hlt]
      simp only
      cases h : (t.get ⟨d.length, hlt⟩ == slash) <;> simp
  · rw [if_neg hp]; exact Or.inr rfl

theorem nodeMatches_true_iff (t d : GoString) :
    nodeMatches t d = Res.ok true ↔
      d <+: t ∧ (t = d ∨ t.get? d.length = some slash) := by
  unfold nodeMatches
  by_cases hp : HasPrefix t d = true
  · rw [if_pos hp]
    have hpre := (HasPrefix_iff t d).1 hp
    by_cases hl : t.length = d.length
    · rw [if_pos hl]
      have : t = d := (hpre.eq_of_length hl.symm).symm
      simp [hpre, this]
    · rw [if_neg hl, goIndex_natCast]
      have hle : d.length ≤ t.length := hpre.length_le
      have hlt : d.length < t.length := by omega
      have hne : t ≠ d := fun h => hl (by rw [h])
      rw [List.get?_eq_get hlt]
      simp [hpre, hne]
  · rw [if_neg hp]
    have : ¬ d <+: t := fun h => hp ((HasPrefix_iff t d).2 h)
    simp [this]

/-- C1: the auto-navigation matcher never panics, and it accepts node ID `d`
for target `t` exactly when `d` is a prefix of `t` and either `t = d` or the
byte of `t` right after the prefix is `'/'`; `/foo/ba` is rejected for target
`/foo/bar`, and `/foo/bar` is accepted for targets `/foo/bar` and
`/foo/bar/x`. -/
theorem nodeMatches_spec (t d : GoString) :
    (nodeMatches t d = Res.ok true ∨ nodeMatches t d = Res.ok false) ∧
    (nodeMatches t d = Res.ok true ↔
      d <+: t ∧ (t = d ∨ t.get? d.length = some slash)) ∧
    nodeMatches (str "/foo/bar") (str "/foo/ba") = Res.ok false ∧
    nodeMatches (str "/foo/bar") (str "/foo/bar") = Res.ok true ∧
    nodeMatches (str "/foo/bar/x") (str "/foo/bar") = Res.ok true :=
  ⟨nodeMatches_total t d, nodeMatches_true_iff t d, by decide, by decide, by decide⟩

/-! ### The fan-in loop -/

theorem collectExpands_all_ok (rs : List ExpanderResult) :
    ∀ acc : List TreeNode, (∀ r ∈ rs, r.Err = none) →
      collectExpands rs.length rs acc = Res.ok (acc ++ rs.flatMap contributedNodes) := by
  induction rs with
  | nil => intro acc _; simp [collectExpands]
  | cons r rest ih =>
    intro acc h
    have hr : r.Err = none := h r (List.mem_cons_self _ _)
    have hrest : ∀ x ∈ rest, x.Err = none := fun x hx => h x (List.mem_cons_of_mem _ hx)
    simp only [List.length_cons, collectExpands, hr, List.flatMap_cons]
    cases hn : r.Nodes with
    | none => simp only [contributedNodes, hn]; rw [ih acc hrest]; simp
    | some nodes =>
      simp only [contributedNodes, hn]; rw [ih (acc ++ nodes) hrest]; simp

theorem ExpandCurrentSelection_returned (Register : List Expander)
    (DefaultExpand : TreeNode → ExpanderResult) (received : List ExpanderResult)
    (w : ListWidget) (currentItem : TreeNode) (fired : List Expander)
    (hsel : CurrentItem w = Res.ok currentItem)
    (hfired : firedExpanders currentItem Register [] = Res.ok fired)
    (hlen : received.length = fired.length)
    (hok : ∀ r ∈ received, r.Err = none)
    (hdef : (DefaultExpand currentItem).Err = none) :
    ExpandCurrentSelection Register DefaultExpand received w =
      Outcome.returned (expandedWidget w currentItem
        (received.flatMap contributedNodes) (DefaultExpand currentItem)) := by
  unfold CurrentItem at hsel
  unfold ExpandCurrentSelection
  simp only [hsel, hfired]
  rw [← hlen, collectExpands_all_ok received [] hok]
  simp only [List.nil_append, hdef]
  unfold expandedWidget currentPage Stack.Push
  generalize received.flatMap contributedNodes = newItems
  cases newItems <;> by_cases hp : pushesPage currentItem = true <;> simp [hp]

theorem firedExpanders_interested (currentItem : TreeNode) (Register : List Expander) :
    ∀ acc : List Expander, (∀ h ∈ Register, (h.DoesExpand currentItem).2 = none) →
      firedExpanders currentItem Register acc =
        Res.ok (acc ++ interested currentItem Register) := by
  induction Register with
  | nil => intro acc _; simp [firedExpanders, interested]
  | cons h rest ih =>
    intro acc hall
    have hh : (h.DoesExpand currentItem).2 = none := hall h (List.mem_cons_self _ _)
    have hrest : ∀ x ∈ rest, (x.DoesExpand currentItem).2 = none :=
      fun x hx => hall x (List.mem_cons_of_mem _ hx)
    unfold firedExpanders
    rcases hd : h.DoesExpand currentItem with ⟨b, e⟩
    rw [hd] at hh
    simp only at hh
    subst hh
    cases b
    · simp only [ih acc hrest, interested, List.filter_cons, hd]
      simp
    · simp only [ih (acc ++ [h]) hrest, interested, List.filter_cons, hd]
      simp

/-- C2: when every predicate succeeds and every fired expander succeeds, for
any two receive orders `rs₁`, `rs₂` of the fired expanders' results the fan-in
loop builds the concatenation of the results' nodes in receive order, the two
child lists are permutations of each other (nothing dropped, nothing
de-duplicated), and so are the lists the two expansions display. -/
theorem merge_receive_order (Register : List Expander)
    (DefaultExpand : TreeNode → ExpanderResult) (w : ListWidget)
    (currentItem : TreeNode) (rs₁ rs₂ : List ExpanderResult)
    (hsel : CurrentItem w = Res.ok currentItem)
    (hpred : ∀ h ∈ Register, (h.DoesExpand currentItem).2 = none)
    (hok : ∀ h ∈ interested currentItem Register, (h.Expand currentItem).Err = none)
    (h₁ : rs₁.Perm (launchedResults currentItem (interested currentItem Register)))
    (h₂ : rs₂.Perm rs₁)
    (hdef : (DefaultExpand currentItem).Err = none) :
    collectExpands (interested currentItem Register).length rs₁ [] =
        Res.ok (rs₁.flatMap contributedNodes) ∧
    collectExpands (interested currentItem Register).length rs₂ [] =
        Res.ok (rs₂.flatMap contributedNodes) ∧
    (rs₁.flatMap contributedNodes).Perm (rs₂.flatMap contributedNodes) ∧
    ∃ w₁ w₂,
      ExpandCurrentSelection Register DefaultExpand rs₁ w = Outcome.returned w₁ ∧
      ExpandCurrentSelection Register DefaultExpand rs₂ w = Outcome.returned w₂ ∧
      w₁.items.Perm w₂.items ∧
      (rs₁.flatMap contributedNodes ≠ [] →
        w₁.items = rs₁.flatMap contributedNodes ∧
        w₂.items = rs₂.flatMap contributedNodes) := by
  have hfired := firedExpanders_interested currentItem Register [] hpred
  rw [List.nil_append] at hfired
  have hlen₁ : rs₁.length = (interested currentItem Register).length := by
    rw [h₁.length_eq]; simp [launchedResults]
  have hlen₂ : rs₂.length = (interested currentItem Register).length := by
    rw [h₂.length_eq, hlen₁]
  have hok₁ : ∀ r ∈ rs₁, r.Err = none := by
    intro r hr
    have hr2 := h₁.subset hr
    simp only [launchedResults, List.mem_map] at hr2
    obtain ⟨h, hh, rfl⟩ := hr2
    exact hok h hh
  have hok₂ : ∀ r ∈ rs₂, r.Err = none := fun r hr => hok₁ r (h₂.subset hr)
  have hperm : (rs₁.flatMap contributedNodes).Perm (rs₂.flatMap contributedNodes) :=
    (h₂.flatMap_right contributedNodes).symm
  have hc₁ := collectExpands_all_ok rs₁ [] hok₁
  have hc₂ := collectExpands_all_ok rs₂ [] hok₂
  rw [hlen₁, List.nil_append] at hc₁
  rw [hlen₂, List.nil_append] at hc₂
  refine ⟨hc₁, hc₂, hperm, _, _,
    ExpandCurrentSelection_returned Register DefaultExpand rs₁ w currentItem _
      hsel hfired hlen₁ hok₁ hdef,
    ExpandCurrentSelection_returned Register DefaultExpand rs₂ w currentItem _
      hsel hfired hlen₂ hok₂ hdef, ?_, ?_⟩
  · by_cases hn : rs₁.flatMap contributedNodes = []
    · have hn2 : rs₂.flatMap contributedNodes = [] := by
        have := hperm.length_eq
        rw [hn] at this
        exact List.length_eq_zero.1 this.symm
      simp [expandedWidget, hn, hn2]
    · have hn2 : rs₂.flatMap contributedNodes ≠ [] := by
        intro h0
        apply hn
        have := hperm.length_eq
        rw [h0] at this
        exact List.length_eq_zero.1 this
      simpa [expandedWidget, hn, hn2] using hperm
  · intro hn
    have hn2 : rs₂.flatMap contributedNodes ≠ [] := by
      intro h0
      apply hn
      have := hperm.length_eq
      rw [h0] at this
      exact List.length_eq_zero.1 this
    simp [expandedWidget, hn, hn2]

/-- Witness of C2: two expanders fire on the subscription of the root list;
receiving `A` before `B` or `B` before `A` gives the two orders of the same
two resource groups. -/
theorem merge_receive_order_witness :
    collectExpands 2 [exResultA, exResultB] [] = Res.ok [exRgA, exRgB] ∧
    collectExpands 2 [exResultB, exResultA] [] = Res.ok [exRgB, exRgA] ∧
    (ExpandCurrentSelection [exExpanderA, exExpanderB] exDefault
        [exResultA, exResultB] exRoot =
      Outcome.returned (expandedWidget exRoot exSub [exRgA, exRgB] (exDefault exSub))) ∧
    ([exResultA, exResultB].flatMap contributedNodes).Perm
      ([exResultB, exResultA].flatMap contributedNodes) :=
  ⟨by decide, by decide, by decide,
    (merge_receive_order [exExpanderA, exExpanderB] exDefault exRoot exSub
      [exResultA, exResultB] [exResultB, exResultA] (by decide)
      (by intro h hh; simp only [List.mem_cons, List.mem_singleton, List.not_mem_nil,
            or_false] at hh; rcases hh with rfl | rfl <;> rfl)
      (by intro h hh; simp only [interested, List.filter_cons, exExpanderA, exExpanderB,
            List.filter_nil, if_true, List.mem_cons, List.mem_singleton,
            List.not_mem_nil, or_false] at hh; rcases hh with rfl | rfl <;> rfl)
      (List.Perm.refl _) (List.Perm.swap _ _ _) rfl).2.2.1⟩

theorem flatMap_contributedNodes_nil (rs : List ExpanderResult)
    (h : ∀ r ∈ rs, r.Nodes = none ∨ r.Nodes = some []) :
    rs.flatMap contributedNodes = [] := by
  induction rs with
  | nil => rfl
  | cons r rest ih =>
    have hr := h r (List.mem_cons_self _ _)
    have hrest := ih fun x hx => h x (List.mem_cons_of_mem _ hx)
    rw [List.flatMap_cons, hrest]
    rcases hr with hr | hr <;> simp [contributedNodes, hr]

theorem CurrentItem_ok_iff (w : ListWidget) :
    (∃ currentItem, CurrentItem w = Res.ok currentItem) ↔
      0 ≤ w.selected ∧ w.selected < (w.items.length : Int) := by
  unfold CurrentItem goIndex
  by_cases hneg : w.selected < 0
  · simp only [hneg, if_true]
    constructor
    · rintro ⟨c, hc⟩; cases hc
    · rintro ⟨h0, _⟩; omega
  · simp only [hneg, if_false]
    cases hg : w.items.get? w.selected.toNat with
    | none =>
      rw [List.get?_eq_none] at hg
      constructor
      · rintro ⟨c, hc⟩; cases hc
      · rintro ⟨_, h1⟩; omega
    | some x =>
      have hlt : w.selected.toNat < w.items.length := by
        by_contra hge
        have hnone := List.get?_eq_none.2 (Nat.le_of_not_lt hge)
        rw [hnone] at hg
        cases hg
      exact ⟨fun _ => ⟨by omega, by omega⟩, fun _ => ⟨x, rfl⟩⟩

/-- C3: with a valid selection, when every predicate succeeds, every fired
expander succeeds with a nil or empty node list (possibly no expander fires),
all results arrive and the Default provider succeeds, `ExpandCurrentSelection`
returns, the displayed node list is the one before the call and the displayed
content is the Default provider's `Response`. -/
theorem expand_without_children (Register : List Expander)
    (DefaultExpand : TreeNode → ExpanderResult) (received : List ExpanderResult)
    (w : ListWidget)
    (hvalid : 0 ≤ w.selected ∧ w.selected < (w.items.length : Int))
    (hpred : ∀ currentItem, CurrentItem w = Res.ok currentItem →
      ∀ h ∈ Register, (h.DoesExpand currentItem).2 = none)
    (hempty : ∀ currentItem, CurrentItem w = Res.ok currentItem →
      ∀ h ∈ interested currentItem Register,
        (h.Expand currentItem).Err = none ∧
        ((h.Expand currentItem).Nodes = none ∨ (h.Expand currentItem).Nodes = some []))
    (hrecv : ∀ currentItem, CurrentItem w = Res.ok currentItem →
      received.Perm (launchedResults currentItem (interested currentItem Register)))
    (hdef : ∀ currentItem, CurrentItem w = Res.ok currentItem →
      (DefaultExpand currentItem).Err = none) :
    ∃ currentItem w1,
      CurrentItem w = Res.ok currentItem ∧
      ExpandCurrentSelection Register DefaultExpand received w = Outcome.returned w1 ∧
      w1.items = w.items ∧
      w1.content = (DefaultExpand currentItem).Response := by
  obtain ⟨currentItem, hsel⟩ := (CurrentItem_ok_iff w).2 hvalid
  have hfired := firedExpanders_interested currentItem Register [] (hpred _ hsel)
  rw [List.nil_append] at hfired
  have hperm := hrecv _ hsel
  have hlen : received.length = (interested currentItem Register).length := by
    rw [hperm.length_eq]; simp [launchedResults]
  have hres : ∀ r ∈ received, r.Err = none ∧ (r.Nodes = none ∨ r.Nodes = some []) := by
    intro r hr
    have hr2 := hperm.subset hr
    simp only [launchedResults, List.mem_map] at hr2
    obtain ⟨h, hh, rfl⟩ := hr2
    exact hempty _ hsel h hh
  have hnil := flatMap_contributedNodes_nil received fun r hr => (hres r hr).2
  refine ⟨currentItem, _, hsel,
    ExpandCurrentSelection_returned Register DefaultExpand received w currentItem _
      hsel hfired hlen (fun r hr => (hres r hr).1) (hdef _ hsel), ?_, ?_⟩
  · simp [expandedWidget, hnil]
  · simp [expandedWidget]

theorem mem_pair_cases {α : Type} {p : α → Prop} {a b : α} (ha : p a) (hb : p b) :
    ∀ x ∈ [a, b], p x := by
  intro x hx
  simp only [List.mem_cons, List.mem_singleton, List.not_mem_nil, or_false] at hx
  rcases hx with rfl | rfl
  · exact ha
  · exact hb

/-- Witness of C3: on the root list an expander with a nil node list and one
with an empty node list fire; the subscription list stays and the content
becomes the default response. -/
theorem expand_without_children_witness :
    ∃ currentItem w1,
      CurrentItem exRoot = Res.ok currentItem ∧
      ExpandCurrentSelection [exExpanderNil, exExpanderEmpty] exDefault
        [exResultEmpty, exResultNil] exRoot = Outcome.returned w1 ∧
      w1.items = exRoot.items ∧
      w1.content = (exDefault currentItem).Response :=
  expand_without_children [exExpanderNil, exExpanderEmpty] exDefault
    [exResultEmpty, exResultNil] exRoot (by decide)
    (fun _ _ => mem_pair_cases rfl rfl)
    (fun _ _ => mem_pair_cases ⟨rfl, Or.inl rfl⟩ ⟨rfl, Or.inr rfl⟩)
    (fun _ _ => List.Perm.swap _ _ _)
    (fun _ _ => rfl)

/-! ### Inversion of `ExpandCurrentSelection` -/

theorem pushesPage_iff (n : TreeNode) :
    pushesPage n = true ↔
      n.ExpandReturnType ≠ str "none" ∧ n.ExpandReturnType ≠ actionType := by
  simp [pushesPage]

theorem firedExpanders_panic (currentItem : TreeNode) (Register : List Expander) :
    ∀ (acc : List Expander) (cause : PanicCause),
      firedExpanders currentItem Register acc = Res.panic cause →
        ∃ err, cause = PanicCause.predicateFailed err := by
  induction Register with
  | nil => intro acc cause h; simp [firedExpanders] at h
  | cons h rest ih =>
    intro acc cause hp
    unfold firedExpanders at hp
    rcases hd : h.DoesExpand currentItem with ⟨b, e⟩
    rw [hd] at hp
    cases e with
    | some err =>
      simp only [Res.panic.injEq] at hp
      exact ⟨err, hp.symm⟩
    | none =>
      cases b
      · exact ih _ _ hp
      · exact ih _ _ hp

theorem collectExpands_panic (n : Nat) :
    ∀ (rs : List ExpanderResult) (acc : List TreeNode) (cause : PanicCause),
      collectExpands n rs acc = Res.panic cause →
        cause = PanicCause.timeout ∨ ∃ err, cause = PanicCause.produceFailed err := by
  induction n with
  | zero => intro rs acc cause h; simp [collectExpands] at h
  | succ n ih =>
    intro rs acc cause h
    cases rs with
    | nil =>
      simp only [collectExpands, Res.panic.injEq] at h
      exact Or.inl h.symm
    | cons r rest =>
      unfold collectExpands at h
      cases he : r.Err with
      | some err =>
        rw [he] at h
        simp only [Res.panic.injEq] at h
        exact Or.inr ⟨err, h.symm⟩
      | none =>
        rw [he] at h
        cases hn : r.Nodes with
        | none => rw [hn] at h; exact ih _ _ _ h
        | some nodes => rw [hn] at h; exact ih _ _ _ h

theorem ExpandCurrentSelection_eq (Register : List Expander)
    (DefaultExpand : TreeNode → ExpanderResult) (received : List ExpanderResult)
    (w : ListWidget) (currentItem : TreeNode)
    (hsel : CurrentItem w = Res.ok currentItem) :
    ExpandCurrentSelection Register DefaultExpand received w =
      match firedExpanders currentItem Register [] with
      | Res.panic cause => Outcome.panicked cause (pushedWidget w currentItem)
      | Res.ok fired =>
        match collectExpands fired.length received [] with
        | Res.panic cause => Outcome.panicked cause (pushedWidget w currentItem)
        | Res.ok newItems =>
          match (DefaultExpand currentItem).Err with
          | some err =>
            Outcome.panicked (PanicCause.defaultContentFailed err)
              { pushedWidget w currentItem with
                items := if newItems = [] then w.items else newItems }
          | none =>
            Outcome.returned
              (expandedWidget w currentItem newItems (DefaultExpand currentItem)) := by
  unfold CurrentItem at hsel
  unfold ExpandCurrentSelection
  simp only [hsel]
  cases firedExpanders currentItem Register [] with
  | panic cause => simp [pushedWidget, currentPage, Stack.Push]
  | ok fired =>
    simp only
    cases collectExpands fired.length received [] with
    | panic cause => simp [pushedWidget, currentPage, Stack.Push]
    | ok newItems =>
      simp only
      cases (DefaultExpand currentItem).Err with
      | some err =>
        cases newItems <;> by_cases hp : pushesPage currentItem = true <;>
          simp [pushedWidget, currentPage, Stack.Push, hp]
      | none =>
        cases newItems <;> by_cases hp : pushesPage currentItem = true <;>
          simp [expandedWidget, currentPage, Stack.Push, hp]

theorem ExpandCurrentSelection_returned_inv (Register : List Expander)
    (DefaultExpand : TreeNode → ExpanderResult) (received : List ExpanderResult)
    (w w1 : ListWidget)
    (h : ExpandCurrentSelection Register DefaultExpand received w = Outcome.returned w1) :
    ∃ currentItem newItems,
      CurrentItem w = Res.ok currentItem ∧
      w1 = expandedWidget w currentItem newItems (DefaultExpand currentItem) := by
  cases hsel : CurrentItem w with
  | panic cause =>
    unfold CurrentItem at hsel
    unfold ExpandCurrentSelection at h
    simp [hsel] at h
  | ok currentItem =>
    rw [ExpandCurrentSelection_eq Register DefaultExpand received w currentItem hsel] at h
    cases hf : firedExpanders currentItem Register [] with
    | panic cause => simp [hf] at h
    | ok fired =>
      cases hc : collectExpands fired.length received [] with
      | panic cause => simp [hf, hc] at h
      | ok newItems =>
        cases hd : (DefaultExpand currentItem).Err with
        | some err => simp [hf, hc, hd] at h
        | none =>
          simp only [hf, hc, hd, Outcome.returned.injEq] at h
          exact ⟨currentItem, newItems, rfl, h.symm⟩

/-! ### Back-navigation -/

/-- C5: on an empty navigation stack `GoBack` changes nothing: the widget
(node list, content, title, selected index) is the one before the call and
the stack is still empty; the call returns (the model of `GoBack` has no
panicking path). -/
theorem GoBack_empty_stack (w : ListWidget) (h : w.navStack = []) :
    GoBack w = w ∧
    (GoBack w).items = w.items ∧ (GoBack w).content = w.content ∧
    (GoBack w).title = w.title ∧ (GoBack w).selected = w.selected ∧
    (GoBack w).navStack = [] := by
  have hw : GoBack w = w := by
    unfold GoBack
    rw [h]
    rfl
  rw [hw]
  exact ⟨rfl, rfl, rfl, rfl, rfl, h⟩

/-- Witness of C5: the root list has an empty stack. -/
theorem GoBack_empty_stack_witness : GoBack exRoot = exRoot :=
  (GoBack_empty_stack exRoot rfl).1

/-- C6 as stated fails: from the state where the leaf `exLeaf`
(`ExpandReturnType` `"none"`) is displayed over the pushed root page, the
expansion of the leaf returns without pushing, and the `GoBack` that follows
pops the root page: node list, content, title and stack all differ from those
before the expansion. -/
theorem expand_goBack_leaf_counterexample :
    ExpandCurrentSelection [exExpanderLeaf] exDefault [exResultLeaf] exRoot =
      Outcome.returned exAtLeaf ∧
    CurrentItem exAtLeaf = Res.ok exLeaf ∧
    ExpandCurrentSelection [exExpanderLeaf] exDefault [] exAtLeaf =
      Outcome.returned exLeafExpanded ∧
    (GoBack exLeafExpanded).items ≠ exAtLeaf.items ∧
    (GoBack exLeafExpanded).content ≠ exAtLeaf.content ∧
    (GoBack exLeafExpanded).title ≠ exAtLeaf.title ∧
    (GoBack exLeafExpanded).navStack ≠ exAtLeaf.navStack := by
  refine ⟨by decide, by decide, by decide, by decide, by decide, by decide, by decide⟩

/-- C6, amended: when the selected node's `ExpandReturnType` is neither
`"none"` nor `"action"`, an `ExpandCurrentSelection` that returns, followed by
`GoBack`, restores the node list, the content, the title, the selected index
and the navigation stack of before the expansion. -/
theorem expand_then_goBack (Register : List Expander)
    (DefaultExpand : TreeNode → ExpanderResult) (received : List ExpanderResult)
    (w w1 : ListWidget)
    (hkind : ∀ currentItem, CurrentItem w = Res.ok currentItem →
      currentItem.ExpandReturnType ≠ str "none" ∧
      currentItem.ExpandReturnType ≠ actionType)
    (hexp : ExpandCurrentSelection Register DefaultExpand received w =
      Outcome.returned w1) :
    (GoBack w1).items = w.items ∧ (GoBack w1).content = w.content ∧
    (GoBack w1).title = w.title ∧ (GoBack w1).selected = w.selected ∧
    (GoBack w1).navStack = w.navStack := by
  obtain ⟨currentItem, newItems, hsel, rfl⟩ :=
    ExpandCurrentSelection_returned_inv Register DefaultExpand received w w1 hexp
  have hp : pushesPage currentItem = true :=
    (pushesPage_iff currentItem).2 (hkind currentItem hsel)
  simp [GoBack, expandedWidget, hp, Stack.Pop, currentPage]

/-- Witness of C6, amended: expanding the subscription of the root list and
going back shows the root list again. -/
theorem expand_then_goBack_witness :
    (GoBack (expandedWidget exRoot exSub [exRgA, exRgB] (exDefault exSub))).items =
        exRoot.items ∧
    (GoBack (expandedWidget exRoot exSub [exRgA, exRgB] (exDefault exSub))).content =
        exRoot.content ∧
    (GoBack (expandedWidget exRoot exSub [exRgA, exRgB] (exDefault exSub))).title =
        exRoot.title ∧
    (GoBack (expandedWidget exRoot exSub [exRgA, exRgB] (exDefault exSub))).selected =
        exRoot.selected ∧
    (GoBack (expandedWidget exRoot exSub [exRgA, exRgB] (exDefault exSub))).navStack =
        exRoot.navStack :=
  expand_then_goBack [exExpanderA, exExpanderB] exDefault [exResultA, exResultB]
    exRoot _
    (by
      intro currentItem h
      have h2 : currentItem = exSub := by
        have h3 : CurrentItem exRoot = Res.ok exSub := by decide
        rw [h3] at h
        exact (Res.ok.inj h).symm
      subst h2
      decide)
    (by decide)

/-! ### When an expansion fails -/

theorem firedExpanders_panic_iff (currentItem : TreeNode) (Register : List Expander) :
    ∀ acc : List Expander,
      (∃ cause, firedExpanders currentItem Register acc = Res.panic cause) ↔
        ∃ h ∈ Register, (h.DoesExpand currentItem).2 ≠ none := by
  induction Register with
  | nil => intro acc; simp [firedExpanders]
  | cons h rest ih =>
    intro acc
    unfold firedExpanders
    rcases hd : h.DoesExpand currentItem with ⟨b, e⟩
    cases e with
    | some err =>
      simp only [List.mem_cons, exists_eq_or_imp, hd]
      constructor
      · intro _; exact Or.inl (by simp)
      · intro _; exact ⟨_, rfl⟩
    | none =>
      cases b
      · simp only [ih acc, List.mem_cons, exists_eq_or_imp, hd]
        simp
      · simp only [ih (acc ++ [h]), List.mem_cons, exists_eq_or_imp, hd]
        simp

theorem collectExpands_panic_iff (n : Nat) :
    ∀ (rs : List ExpanderResult) (acc : List TreeNode),
      (∃ cause, collectExpands n rs acc = Res.panic cause) ↔
        (∃ r ∈ rs.take n, r.Err ≠ none) ∨ rs.length < n := by
  induction n with
  | zero => intro rs acc; simp [collectExpands]
  | succ n ih =>
    intro rs acc
    cases rs with
    | nil => simp [collectExpands]
    | cons r rest =>
      unfold collectExpands
      cases he : r.Err with
      | some err =>
        simp only [List.take_succ_cons, List.mem_cons, exists_eq_or_imp, he]
        constructor
        · intro _; exact Or.inl (Or.inl (by simp))
        · intro _; exact ⟨_, rfl⟩
      | none =>
        cases hn : r.Nodes with
        | none =>
          simp only [ih rest acc, List.take_succ_cons, List.mem_cons, exists_eq_or_imp, he,
            List.length_cons]
          simp
        | some nodes =>
          simp only [ih rest (acc ++ nodes), List.take_succ_cons, List.mem_cons,
            exists_eq_or_imp, he, List.length_cons]
          simp

theorem ExpandCurrentSelection_panics_iff (Register : List Expander)
    (DefaultExpand : TreeNode → ExpanderResult) (received : List ExpanderResult)
    (w : ListWidget) (currentItem : TreeNode)
    (hsel : CurrentItem w = Res.ok currentItem) :
    (∃ cause w1, ExpandCurrentSelection Register DefaultExpand received w =
        Outcome.panicked cause w1) ↔
      ((∃ h ∈ Register, (h.DoesExpand currentItem).2 ≠ none) ∨
        (∃ r ∈ received.take (interested currentItem Register).length, r.Err ≠ none) ∨
        received.length < (interested currentItem Register).length ∨
        (DefaultExpand currentItem).Err ≠ none) := by
  rw [ExpandCurrentSelection_eq Register DefaultExpand received w currentItem hsel]
  by_cases hpred : ∃ h ∈ Register, (h.DoesExpand currentItem).2 ≠ none
  · obtain ⟨cause, hc⟩ := (firedExpanders_panic_iff currentItem Register []).2 hpred
    rw [hc]
    exact ⟨fun _ => Or.inl hpred, fun _ => ⟨_, _, rfl⟩⟩
  · have hall : ∀ h ∈ Register, (h.DoesExpand currentItem).2 = none := by
      intro h hh
      by_contra hne
      exact hpred ⟨h, hh, hne⟩
    have hf := firedExpanders_interested currentItem Register [] hall
    rw [List.nil_append] at hf
    rw [hf]
    simp only
    have hiff := collectExpands_panic_iff (interested currentItem Register).length received []
    cases hc : collectExpands (interested currentItem Register).length received [] with
    | panic cause =>
      have hrhs := hiff.1 ⟨cause, hc⟩
      constructor
      · intro _
        rcases hrhs with h | h
        · exact Or.inr (Or.inl h)
        · exact Or.inr (Or.inr (Or.inl h))
      · intro _; exact ⟨_, _, rfl⟩
    | ok newItems =>
      have hno : ¬ ((∃ r ∈ received.take (interested currentItem Register).length,
          r.Err ≠ none) ∨ received.length < (interested currentItem Register).length) := by
        intro h
        obtain ⟨cause, hcause⟩ := hiff.2 h
        rw [hc] at hcause
        cases hcause
      cases hd : (DefaultExpand currentItem).Err with
      | some err =>
        simp only
        exact ⟨fun _ => Or.inr (Or.inr (Or.inr (by simp))), fun _ => ⟨_, _, rfl⟩⟩
      | none =>
        simp only
        constructor
        · rintro ⟨cause, w1, h⟩; cases h
        · intro h
          rcases h with h | h | h | h
          · exact absurd h hpred
          · exact absurd (Or.inl h) hno
          · exact absurd (Or.inr h) hno
          · exact absurd rfl h

/-! ### Failing expansions -/

/-- C7 as stated fails: on the root list, a predicate error panics with the
pre-expansion page left on the stack, and a Default-provider error panics
after the node list was already replaced by the merged children (the page is
left on the stack as well). -/
theorem failed_expand_counterexample :
    ExpandCurrentSelection [exExpanderBroken] exDefault [] exRoot =
      Outcome.panicked (PanicCause.predicateFailed (str "boom"))
        { exRoot with navStack := [currentPage exRoot] } ∧
    exRoot.navStack = [] ∧
    ExpandCurrentSelection [exExpanderA] exDefaultFails [exResultA] exRoot =
      Outcome.panicked (PanicCause.defaultContentFailed (str "boom"))
        { exRoot with navStack := [currentPage exRoot], items := [exRgA] } ∧
    exRoot.items = [exSub] ∧ [exRgA] ≠ [exSub] := by
  refine ⟨by decide, by decide, by decide, by decide, by decide⟩

theorem panicked_state_facts (Register : List Expander)
    (DefaultExpand : TreeNode → ExpanderResult) (received : List ExpanderResult)
    (w w1 : ListWidget) (currentItem : TreeNode) (cause : PanicCause)
    (hsel : CurrentItem w = Res.ok currentItem)
    (hfail : ExpandCurrentSelection Register DefaultExpand received w =
      Outcome.panicked cause w1) :
    ((∃ err, cause = PanicCause.predicateFailed err) ∨
      (∃ err, cause = PanicCause.produceFailed err) ∨
      cause = PanicCause.timeout ∨
      (∃ err, cause = PanicCause.defaultContentFailed err)) ∧
    w1.content = w.content ∧ w1.contentTitle = w.contentTitle ∧
    w1.title = w.title ∧ w1.selected = w.selected ∧
    w1.navStack =
      (if currentItem.ExpandReturnType ≠ str "none" ∧
          currentItem.ExpandReturnType ≠ actionType
        then currentPage w :: w.navStack else w.navStack) ∧
    ((∀ err, cause ≠ PanicCause.defaultContentFailed err) → w1.items = w.items) ∧
    ((∃ err, cause = PanicCause.defaultContentFailed err) →
      ∃ fired newItems,
        firedExpanders currentItem Register [] = Res.ok fired ∧
        collectExpands fired.length received [] = Res.ok newItems ∧
        w1.items = if newItems = [] then w.items else newItems) := by
  have hstack : ∀ v : ListWidget, v.navStack = (pushedWidget w currentItem).navStack →
      v.navStack =
        (if currentItem.ExpandReturnType ≠ str "none" ∧
            currentItem.ExpandReturnType ≠ actionType
          then currentPage w :: w.navStack else w.navStack) := by
    intro v hv
    rw [hv]
    by_cases hp : pushesPage currentItem = true
    · rw [if_pos ((pushesPage_iff currentItem).1 hp)]; simp [pushedWidget, hp]
    · rw [if_neg (fun h => hp ((pushesPage_iff currentItem).2 h))]; simp [pushedWidget, hp]
  have hframe : (pushedWidget w currentItem).content = w.content ∧
      (pushedWidget w currentItem).contentTitle = w.contentTitle ∧
      (pushedWidget w currentItem).title = w.title ∧
      (pushedWidget w currentItem).selected = w.selected ∧
      (pushedWidget w currentItem).items = w.items := by
    by_cases hp : pushesPage currentItem = true <;> simp [pushedWidget, hp]
  rw [ExpandCurrentSelection_eq Register DefaultExpand received w currentItem hsel] at hfail
  cases hf : firedExpanders currentItem Register [] with
  | panic c =>
    simp only [hf, Outcome.panicked.injEq] at hfail
    obtain ⟨rfl, rfl⟩ := hfail
    obtain ⟨err, rfl⟩ := firedExpanders_panic currentItem Register [] _ hf
    refine ⟨Or.inl ⟨err, rfl⟩, hframe.1, hframe.2.1, hframe.2.2.1, hframe.2.2.2.1,
      hstack _ rfl, fun _ => hframe.2.2.2.2, ?_⟩
    rintro ⟨e, he⟩
    cases he
  | ok fired =>
    cases hc : collectExpands fired.length received [] with
    | panic c =>
      simp only [hf, hc, Outcome.panicked.injEq] at hfail
      obtain ⟨rfl, rfl⟩ := hfail
      have hkind := collectExpands_panic fired.length received [] _ hc
      refine ⟨?_, hframe.1, hframe.2.1, hframe.2.2.1, hframe.2.2.2.1,
        hstack _ rfl, fun _ => hframe.2.2.2.2, ?_⟩
      · rcases hkind with h | ⟨err, h⟩
        · exact Or.inr (Or.inr (Or.inl h))
        · exact Or.inr (Or.inl ⟨err, h⟩)
      · rintro ⟨e, he⟩
        rcases hkind with h | ⟨err, h⟩ <;> rw [h] at he <;> cases he
    | ok newItems =>
      cases hd : (DefaultExpand currentItem).Err with
      | none => simp [hf, hc, hd] at hfail
      | some err =>
        simp only [hf, hc, hd, Outcome.panicked.injEq] at hfail
        obtain ⟨rfl, rfl⟩ := hfail
        refine ⟨Or.inr (Or.inr (Or.inr ⟨err, rfl⟩)), hframe.1, hframe.2.1, hframe.2.2.1,
          hframe.2.2.2.1, hstack _ rfl, ?_, fun _ => ⟨fired, newItems, rfl, hc, rfl⟩⟩
        intro hne
        exact absurd rfl (hne err)

/-- C7, amended: an expansion of a validly selected node fails exactly when
a predicate returns an error, one of the awaited results carries `Err`, fewer
results than fired expanders arrive before the deadline, or the Default
provider's result carries `Err`; the failure is a panic and nothing is rolled
back. At the panic the content, its title, the list title and the selected
index are those of before the call; the navigation stack is the one of before
the call when the selected node's `ExpandReturnType` is `"none"` or `"action"`
and otherwise holds the pre-expansion page on top of it; the node list is the
one of before the call unless the Default provider failed, in which case it is
already the merged child list when that list is non-empty. -/
theorem failed_expand_state (Register : List Expander)
    (DefaultExpand : TreeNode → ExpanderResult) (received : List ExpanderResult)
    (w : ListWidget) (currentItem : TreeNode)
    (hsel : CurrentItem w = Res.ok currentItem) :
    ((∃ cause w1, ExpandCurrentSelection Register DefaultExpand received w =
        Outcome.panicked cause w1) ↔
      ((∃ h ∈ Register, (h.DoesExpand currentItem).2 ≠ none) ∨
        (∃ r ∈ received.take (interested currentItem Register).length, r.Err ≠ none) ∨
        received.length < (interested currentItem Register).length ∨
        (DefaultExpand currentItem).Err ≠ none)) ∧
    ∀ (cause : PanicCause) (w1 : ListWidget),
      ExpandCurrentSelection Register DefaultExpand received w =
        Outcome.panicked cause w1 →
      ((∃ err, cause = PanicCause.predicateFailed err) ∨
        (∃ err, cause = PanicCause.produceFailed err) ∨
        cause = PanicCause.timeout ∨
        (∃ err, cause = PanicCause.defaultContentFailed err)) ∧
      w1.content = w.content ∧ w1.contentTitle = w.contentTitle ∧
      w1.title = w.title ∧ w1.selected = w.selected ∧
      w1.navStack =
        (if currentItem.ExpandReturnType ≠ str "none" ∧
            currentItem.ExpandReturnType ≠ actionType
          then currentPage w :: w.navStack else w.navStack) ∧
      ((∀ err, cause ≠ PanicCause.defaultContentFailed err) → w1.items = w.items) ∧
      ((∃ err, cause = PanicCause.defaultContentFailed err) →
        ∃ fired newItems,
          firedExpanders currentItem Register [] = Res.ok fired ∧
          collectExpands fired.length received [] = Res.ok newItems ∧
          w1.items = if newItems = [] then w.items else newItems) :=
  ⟨ExpandCurrentSelection_panics_iff Register DefaultExpand received w currentItem hsel,
    fun cause w1 hfail =>
      panicked_state_facts Register DefaultExpand received w w1 currentItem cause
        hsel hfail⟩

/-- Witness of C7, amended: the predicate error on the root list; the page of
the root list is on the stack at the panic and the node list is untouched. -/
theorem failed_expand_state_witness :
    ({ exRoot with navStack := [currentPage exRoot] } : ListWidget).navStack =
      (if exSub.ExpandReturnType ≠ str "none" ∧ exSub.ExpandReturnType ≠ actionType
        then currentPage exRoot :: exRoot.navStack else exRoot.navStack) ∧
    ({ exRoot with navStack := [currentPage exRoot] } : ListWidget).items =
      exRoot.items :=
  have h := (failed_expand_state [exExpanderBroken] exDefault [] exRoot exSub
    (by decide)).2 (PanicCause.predicateFailed (str "boom"))
    { exRoot with navStack := [currentPage exRoot] } (by decide)
  ⟨h.2.2.2.2.2.1, h.2.2.2.2.2.2.1 (by intro err he; cases he)⟩

/-! ### Depth of the navigation stack -/

theorem ChangeSelection_navStack (i : Int) (w : ListWidget) :
    (ChangeSelection i w).navStack = w.navStack := by
  unfold ChangeSelection
  split <;> rfl

theorem applyOp_depth (Register : List Expander)
    (DefaultExpand : TreeNode → ExpanderResult) (op : Op) (w w1 : ListWidget) (t : Tally)
    (hnav : op.isNavigation = true)
    (hstep : applyOp Register DefaultExpand op w = Outcome.returned w1) :
    (w1.navStack.length : Int) +
        (tallyOp Register DefaultExpand op w t).pops + t.pushingExpansions =
      (w.navStack.length : Int) + t.pops +
        (tallyOp Register DefaultExpand op w t).pushingExpansions := by
  cases op with
  | SetNodes nodes => simp [Op.isNavigation] at hnav
  | ChangeSelection i =>
    simp only [applyOp, Outcome.returned.injEq] at hstep
    subst hstep
    simp [tallyOp, ChangeSelection_navStack]
  | GoBack =>
    simp only [applyOp, Outcome.returned.injEq] at hstep
    subst hstep
    cases hs : w.navStack with
    | nil => simp [tallyOp, GoBack, hs, Stack.Pop]
    | cons p rest =>
      simp [tallyOp, GoBack, hs, Stack.Pop]
      omega
  | ExpandCurrentSelection received =>
    simp only [applyOp] at hstep
    obtain ⟨currentItem, newItems, hsel, rfl⟩ :=
      ExpandCurrentSelection_returned_inv Register DefaultExpand received w w1 hstep
    by_cases hp : pushesPage currentItem = true
    · simp [tallyOp, hstep, hsel, hp, expandedWidget]
      omega
    · simp [tallyOp, hstep, hsel, hp, expandedWidget]

theorem runOps_depth (Register : List Expander)
    (DefaultExpand : TreeNode → ExpanderResult) (ops : List Op) :
    ∀ (w w1 : ListWidget) (t : Tally),
      (∀ op ∈ ops, op.isNavigation = true) →
      runOps Register DefaultExpand ops w = some w1 →
      (w1.navStack.length : Int) +
          (tallyOps Register DefaultExpand ops w t).pops + t.pushingExpansions =
        (w.navStack.length : Int) + t.pops +
          (tallyOps Register DefaultExpand ops w t).pushingExpansions := by
  induction ops with
  | nil =>
    intro w w1 t _ hrun
    simp only [runOps, Option.some.injEq] at hrun
    subst hrun
    simp [tallyOps]
  | cons op rest ih =>
    intro w w1 t hnav hrun
    unfold runOps at hrun
    unfold tallyOps
    cases hstep : applyOp Register DefaultExpand op w with
    | panicked cause v => rw [hstep] at hrun; cases hrun
    | returned v =>
      rw [hstep] at hrun
      simp only at hrun ⊢
      have h1 := applyOp_depth Register DefaultExpand op w v t
        (hnav op (List.mem_cons_self _ _)) hstep
      have h2 := ih v w1 (tallyOp Register DefaultExpand op w t)
        (fun o ho => hnav o (List.mem_cons_of_mem _ ho)) hrun
      omega

/-- C4 as stated fails: from the root list, expanding the subscription and
then the displayed leaf (`ExpandReturnType` `"none"`) are two expansions that
return and no page is popped, yet the stack holds one page. -/
theorem stack_depth_counterexample :
    exRoot.navStack = [] ∧
    runOps [exExpanderLeaf] exDefault exTwoExpansions exRoot = some exLeafExpanded ∧
    tallyOps [exExpanderLeaf] exDefault exTwoExpansions exRoot
      { expansions := 0, pushingExpansions := 0, pops := 0 } =
      { expansions := 2, pushingExpansions := 1, pops := 0 } ∧
    exLeafExpanded.navStack.length = 1 ∧
    (exLeafExpanded.navStack.length : Int) ≠
      ((tallyOps [exExpanderLeaf] exDefault exTwoExpansions exRoot
          { expansions := 0, pushingExpansions := 0, pops := 0 }).expansions : Int) -
      ((tallyOps [exExpanderLeaf] exDefault exTwoExpansions exRoot
          { expansions := 0, pushingExpansions := 0, pops := 0 }).pops : Int) := by
  refine ⟨by decide, by decide, by decide, by decide, by decide⟩

/-- C4, amended: for every sequence of `ExpandCurrentSelection` calls that
return and `GoBack` calls (with selection changes in between) starting from a
list with an empty navigation stack, the depth of the stack after the
sequence equals the number of returned expansions whose selected node's
`ExpandReturnType` is neither `"none"` nor `"action"`, minus the number of
`GoBack` calls that popped a page. -/
theorem stack_depth (Register : List Expander)
    (DefaultExpand : TreeNode → ExpanderResult) (ops : List Op) (w w1 : ListWidget)
    (hroot : w.navStack = [])
    (hnav : ∀ op ∈ ops, op.isNavigation = true)
    (hrun : runOps Register DefaultExpand ops w = some w1) :
    (w1.navStack.length : Int) =
      ((tallyOps Register DefaultExpand ops w
          { expansions := 0, pushingExpansions := 0, pops := 0 }).pushingExpansions : Int) -
      ((tallyOps Register DefaultExpand ops w
          { expansions := 0, pushingExpansions := 0, pops := 0 }).pops : Int) := by
  have h := runOps_depth Register DefaultExpand ops w w1
    { expansions := 0, pushingExpansions := 0, pops := 0 } hnav hrun
  rw [hroot] at h
  simp only [List.length_nil, Nat.cast_zero] at h
  omega

/-- Witness of C4, amended: expand the subscription, expand the leaf, go back,
go back again on the then empty stack: one pushing expansion, one pop, depth
zero. -/
theorem stack_depth_witness :
    ((GoBack (GoBack exLeafExpanded)).navStack.length : Int) =
      ((tallyOps [exExpanderLeaf] exDefault
          [Op.ExpandCurrentSelection [exResultLeaf], Op.ExpandCurrentSelection [],
            Op.GoBack, Op.GoBack] exRoot
          { expansions := 0, pushingExpansions := 0, pops := 0 }).pushingExpansions : Int) -
      ((tallyOps [exExpanderLeaf] exDefault
          [Op.ExpandCurrentSelection [exResultLeaf], Op.ExpandCurrentSelection [],
            Op.GoBack, Op.GoBack] exRoot
          { expansions := 0, pushingExpansions := 0, pops := 0 }).pops : Int) :=
  stack_depth [exExpanderLeaf] exDefault
    [Op.ExpandCurrentSelection [exResultLeaf], Op.ExpandCurrentSelection [],
      Op.GoBack, Op.GoBack] exRoot (GoBack (GoBack exLeafExpanded))
    (by decide) (by decide) (by decide)

/-! ### The selection stays a valid index -/

theorem SelectionInv_new (items : List GoString) (selected : Int)
    (content contentTitle : GoString) :
    SelectionInv (NewListWidget items selected content contentTitle) := by
  simp [SelectionInv, NewListWidget, validSelection]

theorem validSelection_zero (items : List TreeNode) : validSelection items 0 := by
  refine ⟨le_refl _, fun h => ?_⟩
  have : 0 < items.length := List.length_pos.2 h
  omega

theorem SelectionInv_SetNodes (nodes : List TreeNode) (w : ListWidget)
    (h : SelectionInv w) : SelectionInv (SetNodes nodes w) := by
  refine ⟨validSelection_zero _, ?_⟩
  intro p hp
  simp only [SetNodes, Stack.Push, List.mem_cons] at hp
  rcases hp with rfl | hp
  · exact validSelection_zero _
  · exact h.2 p hp

theorem SelectionInv_ChangeSelection (i : Int) (w : ListWidget)
    (h : SelectionInv w) : SelectionInv (ChangeSelection i w) := by
  unfold ChangeSelection
  split
  · exact h
  · rename_i hc
    refine ⟨⟨?_, fun _ => ?_⟩, h.2⟩
    · simp only; omega
    · simp only; omega

theorem SelectionInv_GoBack (w : ListWidget) (h : SelectionInv w) :
    SelectionInv (GoBack w) := by
  unfold GoBack
  cases hs : w.navStack with
  | nil => simpa [Stack.Pop] using h
  | cons p rest =>
    have hp := h.2 p (by rw [hs]; exact List.mem_cons_self _ _)
    refine ⟨hp, ?_⟩
    intro q hq
    exact h.2 q (by rw [hs]; exact List.mem_cons_of_mem _ hq)

theorem SelectionInv_Expand (Register : List Expander)
    (DefaultExpand : TreeNode → ExpanderResult) (received : List ExpanderResult)
    (w w1 : ListWidget) (h : SelectionInv w)
    (hexp : ExpandCurrentSelection Register DefaultExpand received w =
      Outcome.returned w1) : SelectionInv w1 := by
  obtain ⟨currentItem, newItems, hsel, rfl⟩ :=
    ExpandCurrentSelection_returned_inv Register DefaultExpand received w w1 hexp
  have hvalid := (CurrentItem_ok_iff w).1 ⟨currentItem, hsel⟩
  refine ⟨validSelection_zero _, ?_⟩
  intro p hp
  by_cases hpush : pushesPage currentItem = true
  · simp only [expandedWidget, hpush, if_true, List.mem_cons] at hp
    rcases hp with rfl | hp
    · exact ⟨hvalid.1, fun _ => hvalid.2⟩
    · exact h.2 p hp
  · simp only [expandedWidget, hpush] at hp
    exact h.2 p hp

theorem SelectionInv_runOps (Register : List Expander)
    (DefaultExpand : TreeNode → ExpanderResult) (ops : List Op) :
    ∀ w w1 : ListWidget, SelectionInv w →
      runOps Register DefaultExpand ops w = some w1 → SelectionInv w1 := by
  induction ops with
  | nil =>
    intro w w1 h hrun
    simp only [runOps, Option.some.injEq] at hrun
    exact hrun ▸ h
  | cons op rest ih =>
    intro w w1 h hrun
    unfold runOps at hrun
    cases hstep : applyOp Register DefaultExpand op w with
    | panicked cause v => rw [hstep] at hrun; cases hrun
    | returned v =>
      rw [hstep] at hrun
      refine ih v w1 ?_ hrun
      cases op with
      | SetNodes nodes =>
        simp only [applyOp, Outcome.returned.injEq] at hstep
        exact hstep ▸ SelectionInv_SetNodes nodes w h
      | ChangeSelection i =>
        simp only [applyOp, Outcome.returned.injEq] at hstep
        exact hstep ▸ SelectionInv_ChangeSelection i w h
      | GoBack =>
        simp only [applyOp, Outcome.returned.injEq] at hstep
        exact hstep ▸ SelectionInv_GoBack w h
      | ExpandCurrentSelection received =>
        exact SelectionInv_Expand Register DefaultExpand received w v h hstep

/-- C10: in every state reached from a freshly created `ListWidget` by
`SetNodes`, `ChangeSelection`, `GoBack` and returning `ExpandCurrentSelection`
calls, the selected index is non-negative and below the length of the node
list when that list is non-empty, every stacked page stores such a selection
for its own node list, and on a non-empty list the indexing
`w.items[w.selected]` of `ExpandCurrentSelection` and `CurrentItem` does not
panic. -/
theorem selection_in_range (Register : List Expander)
    (DefaultExpand : TreeNode → ExpanderResult) (ops : List Op)
    (items : List GoString) (selected : Int) (content contentTitle : GoString)
    (w : ListWidget)
    (hrun : runOps Register DefaultExpand ops
      (NewListWidget items selected content contentTitle) = some w) :
    (0 ≤ w.selected ∧ (w.items ≠ [] → w.selected < (w.items.length : Int))) ∧
    (∀ p ∈ w.navStack,
      0 ≤ p.Selection ∧ (p.Value ≠ [] → p.Selection < (p.Value.length : Int))) ∧
    (w.items ≠ [] → ∃ currentItem, CurrentItem w = Res.ok currentItem ∧
      goIndex w.items w.selected = Res.ok currentItem) := by
  have hinv := SelectionInv_runOps Register DefaultExpand ops _ w
    (SelectionInv_new items selected content contentTitle) hrun
  refine ⟨hinv.1, hinv.2, fun hne => ?_⟩
  obtain ⟨c, hc⟩ := (CurrentItem_ok_iff w).2 ⟨hinv.1.1, hinv.1.2 hne⟩
  exact ⟨c, hc, hc⟩

/-- Witness of C10: after `exOps` on a fresh widget the second of two nodes is
selected and the stacked page of the empty list stores selection 0. -/
theorem selection_in_range_witness :
    (0 ≤ exAfterOps.selected ∧
      (exAfterOps.items ≠ [] → exAfterOps.selected < (exAfterOps.items.length : Int))) ∧
    (∀ p ∈ exAfterOps.navStack,
      0 ≤ p.Selection ∧ (p.Value ≠ [] → p.Selection < (p.Value.length : Int))) ∧
    (exAfterOps.items ≠ [] → ∃ currentItem, CurrentItem exAfterOps = Res.ok currentItem ∧
      goIndex exAfterOps.items exAfterOps.selected = Res.ok currentItem) :=
  selection_in_range [exExpanderA] exDefault exOps [str "Loading..."] 0 [] []
    exAfterOps (by decide)

/-! ### The auto-navigation goroutine -/

theorem nodeMatches_false_of_not (t d : GoString) (h : ¬ PathPrefix d t) :
    nodeMatches t d = Res.ok false := by
  rcases nodeMatches_total t d with h1 | h1
  · exact absurd ((nodeMatches_true_iff t d).1 h1) h
  · exact h1

theorem scanNodes_none (t : GoString) (nodeList : List NodeRef) :
    ∀ k : Nat, (∀ node ∈ nodeList, ¬ PathPrefix node.node.ID t) →
      scanNodes t nodeList k = Res.ok none := by
  induction nodeList with
  | nil => intro k _; rfl
  | cons n rest ih =>
    intro k h
    unfold scanNodes
    rw [nodeMatches_false_of_not t n.node.ID (h n (List.mem_cons_self _ _))]
    exact ih (k + 1) fun m hm => h m (List.mem_cons_of_mem _ hm)

theorem scanNodes_first (t : GoString) (nodeList : List NodeRef) :
    ∀ (k i : Nat) (node : NodeRef), nodeList.get? i = some node →
      PathPrefix node.node.ID t →
      (∀ (j : Nat) (m : NodeRef), j < i → nodeList.get? j = some m →
        ¬ PathPrefix m.node.ID t) →
      scanNodes t nodeList k = Res.ok (some (k + i, node)) := by
  induction nodeList with
  | nil => intro k i node hget; simp at hget
  | cons n rest ih =>
    intro k i node hget hmatch hfirst
    unfold scanNodes
    cases i with
    | zero =>
      simp only [List.get?_cons_zero, Option.some.injEq] at hget
      subst hget
      rw [(nodeMatches_true_iff t n.node.ID).2 hmatch]
      rfl
    | succ i =>
      have hn : ¬ PathPrefix n.node.ID t := hfirst 0 n (Nat.succ_pos _) rfl
      rw [nodeMatches_false_of_not t n.node.ID hn]
      simp only [List.get?_cons_succ] at hget
      have := ih (k + 1) i node hget hmatch
        (fun j m hj hm => hfirst (j + 1) m (Nat.succ_lt_succ hj) (by simpa using hm))
      rw [this, Nat.add_right_comm k 1 i, Nat.add_assoc k i 1]

/-- C8: while the automaton is Active and no divergence is detected, an event
whose list has a matching node makes it act on the first matching node in
list order only: it issues `ChangeSelection` with that node's index, then
`ExpandCurrentSelection`, records the node as last matched and stays Active;
an event without a matching node makes it issue no command and become
Stopped. -/
theorem onNavigated_active (navigateToID : GoString) (currentExpanded : Option Nat)
    (nodeList : List NodeRef) (st : AutoNav)
    (hactive : st.processNavigations = true)
    (hsame : st.lastNavigatedNode = none ∨ st.lastNavigatedNode = currentExpanded) :
    (∀ (i : Nat) (node : NodeRef), nodeList.get? i = some node →
      PathPrefix node.node.ID navigateToID →
      (∀ (j : Nat) (m : NodeRef), j < i → nodeList.get? j = some m →
        ¬ PathPrefix m.node.ID navigateToID) →
      onNavigated navigateToID currentExpanded nodeList st =
        Res.ok ({ lastNavigatedNode := some node.addr, processNavigations := true },
          [Command.ChangeSelection (i : Int), Command.ExpandCurrentSelection])) ∧
    ((∀ node ∈ nodeList, ¬ PathPrefix node.node.ID navigateToID) →
      onNavigated navigateToID currentExpanded nodeList st =
        Res.ok ({ lastNavigatedNode := st.lastNavigatedNode,
                  processNavigations := false }, [])) := by
  have hnd : ¬ (st.lastNavigatedNode ≠ none ∧ st.lastNavigatedNode ≠ currentExpanded) := by
    rintro ⟨h1, h2⟩
    rcases hsame with h | h
    · exact h1 h
    · exact h2 h
  constructor
  · intro i node hget hmatch hfirst
    unfold onNavigated
    rw [if_pos hactive, if_neg hnd,
      scanNodes_first navigateToID nodeList 0 i node hget hmatch hfirst]
    simp [hactive]
  · intro hnone
    unfold onNavigated
    rw [if_pos hactive, if_neg hnd, scanNodes_none navigateToID nodeList 0 hnone]

/-- Witness of C8: for target `/s1/a`, the event listing `exRgB`, `exRgA` and
`exLeaf` selects index 1 and expands; the same event for target `/s2`,
received in the initial state, stops the automaton. -/
theorem onNavigated_active_witness :
    onNavigated (str "/s1/a") (some 1) exChildren
        { lastNavigatedNode := some 1, processNavigations := true } =
      Res.ok ({ lastNavigatedNode := some 3, processNavigations := true },
        [Command.ChangeSelection 1, Command.ExpandCurrentSelection]) ∧
    onNavigated (str "/s2") none exChildren AutoNav.init =
      Res.ok ({ lastNavigatedNode := none, processNavigations := false }, []) :=
  have h1 := onNavigated_active (str "/s1/a") (some 1) exChildren
    { lastNavigatedNode := some 1, processNavigations := true } rfl (Or.inr rfl)
  have h2 := onNavigated_active (str "/s2") none exChildren AutoNav.init rfl (Or.inl rfl)
  ⟨h1.1 1 { addr := 3, node := exRgA } rfl
      ((nodeMatches_true_iff _ _).1 (by decide))
      (by
        intro j m hj hm
        have hj0 : j = 0 := by omega
        subst hj0
        simp only [exChildren, List.get?_cons_zero, Option.some.injEq] at hm
        subst hm
        intro hpp
        have := (nodeMatches_true_iff _ _).2 hpp
        revert this
        decide),
    h2.2 (by
      intro node hnode hpp
      have hm := (nodeMatches_true_iff _ _).2 hpp
      simp only [exChildren, List.mem_cons, List.mem_singleton, List.not_mem_nil,
        or_false] at hnode
      rcases hnode with rfl | rfl | rfl <;> revert hm <;> decide)⟩

theorem runEvents_stopped (navigateToID : GoString) (evs : List NavEvent) :
    ∀ st : AutoNav, st.processNavigations = false →
      runEvents navigateToID evs st = Res.ok (st, []) := by
  induction evs with
  | nil => intro st _; rfl
  | cons ev rest ih =>
    intro st hst
    have hstep : onNavigated navigateToID ev.currentExpanded ev.nodeList st =
        Res.ok (st, []) := by
      unfold onNavigated
      simp [hst]
    unfold runEvents
    rw [hstep]
    simp only
    rw [ih st hst]
    rfl

/-- C9: when an event arrives while the last matched node is set and is not
the engine's currently expanded node, the automaton issues no command for that
event, whatever the list holds, and becomes Stopped; a Stopped automaton
issues no command and keeps its state over every further sequence of events,
whatever the events and the engine's state are. -/
theorem divergence_stops (navigateToID : GoString) (currentExpanded : Option Nat)
    (nodeList : List NodeRef) (st : AutoNav) (last : Nat)
    (hactive : st.processNavigations = true)
    (hlast : st.lastNavigatedNode = some last)
    (hdiv : currentExpanded ≠ some last) :
    onNavigated navigateToID currentExpanded nodeList st =
      Res.ok ({ lastNavigatedNode := some last, processNavigations := false }, []) ∧
    (∀ evs : List NavEvent,
      runEvents navigateToID
          ({ currentExpanded := currentExpanded, nodeList := nodeList } :: evs) st =
        Res.ok ({ lastNavigatedNode := some last, processNavigations := false }, [])) ∧
    (∀ (stopped : AutoNav) (evs : List NavEvent), stopped.processNavigations = false →
      runEvents navigateToID evs stopped = Res.ok (stopped, [])) := by
  have hstep : onNavigated navigateToID currentExpanded nodeList st =
      Res.ok ({ lastNavigatedNode := some last, processNavigations := false }, []) := by
    unfold onNavigated
    have hd : st.lastNavigatedNode ≠ none ∧ st.lastNavigatedNode ≠ currentExpanded := by
      rw [hlast]
      exact ⟨by simp, fun h => hdiv h.symm⟩
    rw [if_pos hactive, if_pos hd, hlast]
  refine ⟨hstep, fun evs => ?_, fun stopped evs h => runEvents_stopped navigateToID evs stopped h⟩
  unfold runEvents
  rw [hstep]
  simp only
  rw [runEvents_stopped navigateToID evs _ rfl]
  rfl

/-- Witness of C9: the automaton last matched the node at address 1, the
engine's expanded node is the one at address 9; the event lists the matching
node `exRgA`, and no command is issued, neither for it nor for a later event
that would match with the engine back at address 1. -/
theorem divergence_stops_witness :
    onNavigated (str "/s1/a") (some 9) exChildren
        { lastNavigatedNode := some 1, processNavigations := true } =
      Res.ok ({ lastNavigatedNode := some 1, processNavigations := false }, []) ∧
    runEvents (str "/s1/a")
        [{ currentExpanded := some 9, nodeList := exChildren },
          { currentExpanded := some 1, nodeList := exChildren }]
        { lastNavigatedNode := some 1, processNavigations := true } =
      Res.ok ({ lastNavigatedNode := some 1, processNavigations := false }, []) :=
  have h := divergence_stops (str "/s1/a") (some 9) exChildren
    { lastNavigatedNode := some 1, processNavigations := true } 1 rfl rfl (by decide)
  ⟨h.1, h.2.1 [{ currentExpanded := some 1, nodeList := exChildren }]⟩

end Azbrowse
